import Mathlib

/-!
# Verification of the gevulot-shim task-handoff protocol

Shallow embedding of `src/lib.rs` (guest runtime: descriptor model,
mount-readiness poller, `run`) and of the result-collection step of
`src/bin/shim-executor.rs` (host orchestrator), together with proofs of
the specified properties.

Conventions of the embedding:
* `serde_json` values are modelled by the inductive `Json`; serialization of
  a descriptor is a function into `Json`, deserialization a partial function
  out of it (field lookup by name, as serde's derived deserializer does).
* Reads of the outside world (`/proc/mounts`, `task.json`, the existence and
  contents of `task_result.json`) are passed in explicitly as a `World`.
* Rust `Result<T, E>` is `Except E T`; a Rust panic is a distinguished
  outcome constructor, not an `Except` error.
* Time is discrete: one tick = one second = one iteration of the mount-wait
  loop (the loop sleeps 1 s per iteration, so `Instant::elapsed` at the top
  of iteration `t` is `t` seconds).
-/

namespace GevulotShim

/-- I/O errors are identified by their message only. -/
abbrev IOError := String

/-- JSON values, the target of `serde_json` in the source. -/
inductive Json where
  | null : Json
  | bool (b : Bool) : Json
  | num (n : Int) : Json
  | str (s : String) : Json
  | arr (elems : List Json) : Json
  | obj (fields : List (String × Json)) : Json

/-- `const MOUNT_TIMEOUT: Duration = Duration::from_secs(30)` (in ticks). -/
def MOUNT_TIMEOUT : Nat := 30

/-- `pub const TASK_FILE_NAME: &str = "task.json"`. -/
def TASK_FILE_NAME : String := "task.json"

/-- `pub const TASK_RESULT_FILE_NAME: &str = "task_result.json"`. -/
def TASK_RESULT_FILE_NAME : String := "task_result.json"

/-- `pub const WORKSPACE_PATH: &str = "/workspace"`. -/
def WORKSPACE_PATH : String := "/workspace"

/-- `pub type TaskId = String`. -/
abbrev TaskId := String

/-- `pub struct Task { id, args, files }` from `src/lib.rs`. -/
structure Task where
  id : TaskId
  args : List String
  files : List String

/-- `pub struct TaskResult { id, data, files }` from `src/lib.rs`;
`data: Vec<u8>` becomes a list of bytes. -/
structure TaskResult where
  id : TaskId
  data : List (Fin 256)
  files : List String

/-! ## Serialization (the serde derive, at the `Json`-value level) -/

/-- A `Vec<String>` serializes as a JSON array of strings. -/
def strListToJson (xs : List String) : Json :=
  .arr (xs.map .str)

/-- A `Vec<u8>` serializes as a JSON array of numbers. -/
def byteListToJson (xs : List (Fin 256)) : Json :=
  .arr (xs.map fun b => .num b.val)

/-- Serde-derived `Serialize` for `Task`: a JSON object with the fields in
declaration order. -/
def Task.toJson (t : Task) : Json :=
  .obj [("id", .str t.id), ("args", strListToJson t.args),
        ("files", strListToJson t.files)]

/-- Serde-derived `Serialize` for `TaskResult`. -/
def TaskResult.toJson (r : TaskResult) : Json :=
  .obj [("id", .str r.id), ("data", byteListToJson r.data),
        ("files", strListToJson r.files)]

/-- Serde `Serialize` for `Result<TaskResult, String>` (externally tagged). -/
def resultToJson : Except String TaskResult → Json
  | .ok r => .obj [("Ok", r.toJson)]
  | .error e => .obj [("Err", .str e)]

/-! ## Deserialization -/

/-- Field lookup by name in a JSON object's field list. -/
def jsonLookup (key : String) : List (String × Json) → Option Json
  | [] => none
  | (k, v) :: rest => if k = key then some v else jsonLookup key rest

/-- Decode a JSON string. -/
def jsonAsStr : Json → Option String
  | .str s => some s
  | _ => none

/-- Decode a list of JSON values as strings, failing on the first non-string. -/
def decodeStrs : List Json → Option (List String)
  | [] => some []
  | j :: rest =>
    match jsonAsStr j with
    | none => none
    | some s => (decodeStrs rest).map (s :: ·)

/-- Decode a JSON array of strings. -/
def jsonAsStrList : Json → Option (List String)
  | .arr xs => decodeStrs xs
  | _ => none

/-- Decode a JSON number as a byte (`u8`): in range `[0, 256)`. -/
def jsonAsByte : Json → Option (Fin 256)
  | .num n => if h : 0 ≤ n ∧ n < 256 then some ⟨n.toNat, by omega⟩ else none
  | _ => none

/-- Decode a list of JSON values as bytes, failing on the first non-byte. -/
def decodeBytes : List Json → Option (List (Fin 256))
  | [] => some []
  | j :: rest =>
    match jsonAsByte j with
    | none => none
    | some b => (decodeBytes rest).map (b :: ·)

/-- Decode a JSON array of bytes (`Vec<u8>`). -/
def jsonAsByteList : Json → Option (List (Fin 256))
  | .arr xs => decodeBytes xs
  | _ => none

/-- Serde-derived `Deserialize` for `Task`: requires a JSON object, looks the
three fields up by name, fails if any is missing or ill-typed. -/
def Task.fromJson : Json → Option Task
  | .obj fields => do
    let id ← (← jsonLookup "id" fields) |> jsonAsStr
    let args ← (← jsonLookup "args" fields) |> jsonAsStrList
    let files ← (← jsonLookup "files" fields) |> jsonAsStrList
    pure ⟨id, args, files⟩
  | _ => none

/-- Serde-derived `Deserialize` for `TaskResult`. -/
def TaskResult.fromJson : Json → Option TaskResult
  | .obj fields => do
    let id ← (← jsonLookup "id" fields) |> jsonAsStr
    let data ← (← jsonLookup "data" fields) |> jsonAsByteList
    let files ← (← jsonLookup "files" fields) |> jsonAsStrList
    pure ⟨id, data, files⟩
  | _ => none

/-- Serde `Deserialize` for `Result<TaskResult, String>`: an object with the
single variant key `Ok` or `Err`. -/
def resultFromJson : Json → Option (Except String TaskResult)
  | .obj [("Ok", j)] => (TaskResult.fromJson j).map .ok
  | .obj [("Err", .str e)] => some (.error e)
  | _ => none

/-! ## Round-trip lemmas -/

theorem decodeStrs_map_str (xs : List String) :
    decodeStrs (xs.map .str) = some xs := by
  induction xs with
  | nil => rfl
  | cons x xs ih => simp [decodeStrs, jsonAsStr, ih]

theorem decodeBytes_map_num (xs : List (Fin 256)) :
    decodeBytes (xs.map fun b => Json.num b.val) = some xs := by
  induction xs with
  | nil => rfl
  | cons x xs ih =>
    have hx : jsonAsByte (.num x.val) = some x := by
      have h : (0 : Int) ≤ x.val ∧ (x.val : Int) < 256 := by
        constructor
        · exact Int.ofNat_nonneg _
        · exact_mod_cast x.isLt
      simp only [jsonAsByte, dif_pos h, Option.some.injEq]
      apply Fin.ext
      simp
    simp [decodeBytes, hx, ih]

theorem task_fromJson_toJson (t : Task) : Task.fromJson t.toJson = some t := by
  simp [Task.toJson, Task.fromJson, jsonLookup, jsonAsStr, jsonAsStrList,
    strListToJson, decodeStrs_map_str]

theorem taskResult_fromJson_toJson (r : TaskResult) :
    TaskResult.fromJson r.toJson = some r := by
  simp [TaskResult.toJson, TaskResult.fromJson, jsonLookup, jsonAsStr,
    jsonAsStrList, jsonAsByteList, strListToJson, byteListToJson,
    decodeStrs_map_str, decodeBytes_map_num]

theorem result_fromJson_toJson (r : Except String TaskResult) :
    resultFromJson (resultToJson r) = some r := by
  cases r with
  | ok v => simp [resultToJson, resultFromJson, taskResult_fromJson_toJson]
  | error e => simp [resultToJson, resultFromJson]

/-! ## Descriptor operations -/

/-- `Task::result(&self, data, files) -> Result<TaskResult>`: builds the
result, copying `self.id`; the source always returns `Ok`. -/
def Task.result (t : Task) (data : List (Fin 256)) (files : List String) :
    Except String TaskResult :=
  .ok ⟨t.id, data, files⟩

/-- `Path::is_absolute` on Unix: the path begins with the separator `/`. -/
def isAbsolutePath (name : String) : Bool :=
  match name.toList with
  | c :: _ => c = '/'
  | [] => false

/-- Does the path end with the separator `/` (so `join` needs none)? -/
def endsWithSep (base : String) : Bool :=
  match base.toList.getLast? with
  | some c => c = '/'
  | none => false

/-- `Path::new(workspace).join(name)` on Unix: an absolute `name` (leading
`/`) replaces the base; otherwise `name` is appended, with a separator
inserted unless the base is empty or already ends in one. -/
def pathJoin (base name : String) : String :=
  if isAbsolutePath name then name
  else if base = "" then name
  else if endsWithSep base then base ++ name
  else base ++ "/" ++ name

/-- `Task::get_task_files_path(&self, workspace)`: pure path resolution,
pairing each entry of `files` with the workspace root joined with it. -/
def Task.get_task_files_path (t : Task) (workspace : String) :
    List (String × String) :=
  t.files.map fun name => (name, pathJoin workspace name)

/-! ## Mount-readiness poller -/

/-- Substring scan over character lists: does `needle` occur contiguously in
the scanned list?  Mirrors the searcher behind Rust `str::contains`. -/
def listContainsSub (needle : List Char) : List Char → Bool
  | [] => needle.isEmpty
  | c :: rest => needle.isPrefixOf (c :: rest) || listContainsSub needle rest

/-- Rust `haystack.contains(needle)`: substring containment. -/
def strContains (haystack needle : String) : Bool :=
  listContainsSub needle.toList haystack.toList

/-- The `for line in reader.lines()` loop of `mount_present`: return `true`
at the first line containing the mount point, `false` if none does. -/
def scanMounts (mount_point : String) : List String → Bool
  | [] => false
  | line :: rest =>
    if strContains line mount_point then true else scanMounts mount_point rest

/-- `fn mount_present(mount_point: &str) -> Result<bool>` from `src/lib.rs`.
The result of reading `/proc/mounts` is passed in: `.error e` when the open
fails (the source's `File::open(...)?` propagates it), `.ok lines` when the
lines were read.  (The source's per-line `line.expect(...)` aborts the
process on a mid-read failure; that path likewise never yields `Ok(false)`
and is not modelled separately.) -/
def mount_present (mountsFile : Except IOError (List String))
    (mount_point : String) : Except IOError Bool :=
  match mountsFile with
  | .error e => .error e
  | .ok lines => .ok (scanMounts mount_point lines)

theorem listContainsSub_iff (needle l : List Char) :
    listContainsSub needle l = true ↔ needle <:+: l := by
  induction l with
  | nil =>
    simp [listContainsSub, List.isEmpty_iff, List.infix_nil]
  | cons c rest ih =>
    simp [listContainsSub, List.isPrefixOf_iff_prefix, ih,
      List.infix_cons_iff]

theorem strContains_iff (haystack needle : String) :
    strContains haystack needle = true ↔
      needle.toList <:+: haystack.toList := by
  exact listContainsSub_iff _ _

theorem scanMounts_iff (tag : String) (lines : List String) :
    scanMounts tag lines = true ↔
      ∃ line ∈ lines, tag.toList <:+: line.toList := by
  induction lines with
  | nil => simp [scanMounts]
  | cons line rest ih =>
    by_cases h : strContains line tag
    · simp only [scanMounts, if_pos h]
      exact ⟨fun _ => ⟨line, by simp, (strContains_iff _ _).mp h⟩,
        fun _ => trivial⟩
    ·
      simp only [scanMounts, if_neg h, ih]
      constructor
      · rintro ⟨l, hl, hsub⟩
        exact ⟨l, by simp [hl], hsub⟩
      · rintro ⟨l, hl, hsub⟩
        rcases List.mem_cons.mp hl with rfl | hl
        · exact absurd ((strContains_iff _ _).mpr hsub) (by simpa using h)
        · exact ⟨l, hl, hsub⟩

/-! ## Guest runtime: the mount-wait loop and `run` -/

/-- Outcome of the `loop { ... }` in `run` that waits for the workspace
mount.  `timeout` records the tick at which `beginning.elapsed() >
MOUNT_TIMEOUT` first held (the source panics there); `mounted` the tick at
which `mount_present` returned `Ok(true)`. -/
inductive WaitResult where
  | mounted (tick : Nat) : WaitResult
  | ioError (e : IOError) : WaitResult
  | timeout (tick : Nat) : WaitResult
deriving DecidableEq

/-- The mount-wait loop of `run`, started at tick `t`: each iteration first
checks `elapsed > MOUNT_TIMEOUT` (panicking on timeout), then polls
`mount_present` (propagating its error with `?`, breaking on `true`), then
sleeps one tick.  `mounts n` is the state of `/proc/mounts` as read at tick
`n`. -/
def mountWaitFrom (mounts : Nat → Except IOError (List String))
    (tag : String) (t : Nat) : WaitResult :=
  if MOUNT_TIMEOUT < t then .timeout t
  else
    match mount_present (mounts t) tag with
    | .error e => .ioError e
    | .ok true => .mounted t
    | .ok false => mountWaitFrom mounts tag (t + 1)
termination_by MOUNT_TIMEOUT + 1 - t
decreasing_by simp_wf; omega

/-- The world `run` executes against: the time-indexed `/proc/mounts`
contents, the outcome of opening and parsing-relevant reading of
`/workspace/task.json`, and the initial contents of
`/workspace/task_result.json` (`none` when the file does not exist). -/
structure World where
  mounts : Nat → Except IOError (List String)
  taskFile : Except IOError Json
  resultFile : Option Json

/-- The error classes `run` can return (as `Err(...)`). -/
inductive RunError where
  /-- An I/O error propagated with `?` (mount-table read or `task.json`
  open). -/
  | io (e : IOError) : RunError
  /-- `serde_json::from_reader` failed on `task.json`. -/
  | decode : RunError
  /-- The exclusive-create open (`create_new(true)`) of `task_result.json`
  failed because the file already exists. -/
  | resultFileExists : RunError
deriving DecidableEq

/-- How the `run` function terminated: `Ok(())`, `Err(e)`, or a panic. -/
inductive RunOutcome where
  | ok : RunOutcome
  | err (e : RunError) : RunOutcome
  | panicked (msg : String) : RunOutcome
deriving DecidableEq

/-- Result of executing `run`: its return/panic outcome and the final
contents of `task_result.json`. -/
structure RunOut where
  outcome : RunOutcome
  resultFile : Option Json

/-- `pub fn run(callback) -> Result<()>` from `src/lib.rs`: wait for the
`/workspace` mount, open and decode `task.json`, invoke the callback,
map its error to a string, and persist the `Result<TaskResult, String>`
envelope via an exclusive-create open of `task_result.json`.  The callback
is modelled as already string-mapped (`Except String TaskResult`, matching
`callback(task).map_err(|e| e.to_string())`). -/
def run (w : World) (callback : Task → Except String TaskResult) : RunOut :=
  match mountWaitFrom w.mounts WORKSPACE_PATH 0 with
  | .timeout _ => ⟨.panicked (WORKSPACE_PATH ++ " mount timeout"), w.resultFile⟩
  | .ioError e => ⟨.err (.io e), w.resultFile⟩
  | .mounted _ =>
    match w.taskFile with
    | .error e => ⟨.err (.io e), w.resultFile⟩
    | .ok taskJson =>
      match Task.fromJson taskJson with
      | none => ⟨.err .decode, w.resultFile⟩
      | some task =>
        let result := callback task
        match w.resultFile with
        | some old => ⟨.err .resultFileExists, some old⟩
        | none => ⟨.ok, some (resultToJson result)⟩

/-! ## Host orchestrator: result collection (`run_qemu`, final step) -/

/-- The failure classes of the host's result collection. -/
inductive HostError where
  /-- `File::open(task_result.json)` failed: no result was produced. -/
  | missingResult : HostError
  /-- `serde_json::from_reader` failed on the envelope. -/
  | decodeError : HostError
  /-- The envelope decoded to the `Err` arm: the callback's message is
  reported as the host's own failure (`result.map_err(|e| e.into())`). -/
  | callback (msg : String) : HostError
deriving DecidableEq

/-- The final step of `run_qemu` in `src/bin/shim-executor.rs`: open
`task_result.json`, deserialize the `Result<TaskResult, String>` envelope,
and turn its `Err` arm into the host's own error. -/
def collectResult (resultFile : Option Json) : Except HostError TaskResult :=
  match resultFile with
  | none => .error .missingResult
  | some j =>
    match resultFromJson j with
    | none => .error .decodeError
    | some (.ok r) => .ok r
    | some (.error msg) => .error (.callback msg)

/-! ## Helper lemmas about the mount-wait loop -/

theorem mountWaitFrom_never_mounted
    (mounts : Nat → Except IOError (List String)) (tag : String)
    (h : ∀ n, mount_present (mounts n) tag = .ok false) :
    ∀ k t, MOUNT_TIMEOUT + 1 - t ≤ k → t ≤ MOUNT_TIMEOUT + 1 →
      mountWaitFrom mounts tag t = .timeout (MOUNT_TIMEOUT + 1) := by
  intro k
  induction k with
  | zero =>
    intro t h1 h2
    have ht : t = MOUNT_TIMEOUT + 1 := by omega
    subst ht
    rw [mountWaitFrom]
    simp [MOUNT_TIMEOUT]
  | succ k ih =>
    intro t h1 h2
    rw [mountWaitFrom]
    by_cases hlt : MOUNT_TIMEOUT < t
    · have ht : t = MOUNT_TIMEOUT + 1 := by omega
      simp [hlt, ht]
    · simp only [if_neg hlt, h t]
      exact ih (t + 1) (by omega) (by omega)

theorem mountWaitFrom_first_mounted
    (mounts : Nat → Except IOError (List String)) (tag : String) (N : Nat)
    (hN : N ≤ MOUNT_TIMEOUT)
    (hb : ∀ n, n < N → mount_present (mounts n) tag = .ok false)
    (hat : mount_present (mounts N) tag = .ok true) :
    ∀ k t, N - t ≤ k → t ≤ N → mountWaitFrom mounts tag t = .mounted N := by
  intro k
  induction k with
  | zero =>
    intro t h1 h2
    have ht : t = N := by omega
    subst ht
    rw [mountWaitFrom]
    simp only [if_neg (by omega : ¬ MOUNT_TIMEOUT < t), hat]
  | succ k ih =>
    intro t h1 h2
    rcases Nat.eq_or_lt_of_le h2 with rfl | hlt
    · rw [mountWaitFrom]
      simp only [if_neg (by omega : ¬ MOUNT_TIMEOUT < t), hat]
    · rw [mountWaitFrom]
      simp only [if_neg (by omega : ¬ MOUNT_TIMEOUT < t), hb t hlt]
      exact ih (t + 1) (by omega) (by omega)

/-! ## The claims -/

/-- C4: round-trip law: serializing a `Task` and deserializing the result
yields the original value, and likewise for the success/failure result
envelope wrapping a `TaskResult` or an error string. -/
theorem descriptor_round_trip (t : Task) (r : Except String TaskResult) :
    Task.fromJson t.toJson = some t ∧
    resultFromJson (resultToJson r) = some r :=
  ⟨task_fromJson_toJson t, result_fromJson_toJson r⟩

/-- C7: every `TaskResult` built by `Task::result` carries the originating
task's `id`, for all `data` and `files` arguments (and the construction
always succeeds). -/
theorem task_result_preserves_id (t : Task) (data : List (Fin 256))
    (files : List String) :
    ∃ r, t.result data files = .ok r ∧ r.id = t.id :=
  ⟨⟨t.id, data, files⟩, rfl, rfl⟩

/-- C6: `get_task_files_path` is pure path resolution: one pair per entry of
`files`, in order, pairing the original name with the workspace root joined
with it; on `["a.txt", "sub/b.bin"]` under `"/workspace"` it yields exactly
the specified pairs. -/
theorem get_task_files_path_spec (t : Task) (ws : String) :
    (t.get_task_files_path ws).length = t.files.length ∧
    (∀ i : Nat, (t.get_task_files_path ws)[i]? =
      (t.files[i]?).map fun name => (name, pathJoin ws name)) ∧
    (Task.mk "t1" [] ["a.txt", "sub/b.bin"]).get_task_files_path "/workspace"
      = [("a.txt", "/workspace/a.txt"), ("sub/b.bin", "/workspace/sub/b.bin")] := by
  refine ⟨by simp [Task.get_task_files_path], ?_, by rfl⟩
  intro i
  simp [Task.get_task_files_path]

/-- C9: an entry of `Task.files` that is an absolute path is returned as the
resolved path itself — the join discards the workspace root — so the
resolved path need not lie under the workspace root (e.g. `/etc/passwd`
resolved against `/workspace` stays `/etc/passwd`, which is not under
`/workspace`). -/
theorem absolute_file_entries_escape_workspace (t : Task) (ws name : String)
    (habs : isAbsolutePath name = true) (hmem : name ∈ t.files) :
    pathJoin ws name = name ∧
    (name, name) ∈ t.get_task_files_path ws ∧
    pathJoin "/workspace" "/etc/passwd" = "/etc/passwd" ∧
    ("/workspace".toList).isPrefixOf "/etc/passwd".toList = false := by
  have hj : pathJoin ws name = name := by simp [pathJoin, habs]
  refine ⟨hj, ?_, by rfl, by decide⟩
  unfold Task.get_task_files_path
  exact List.mem_map.mpr ⟨name, hmem, by rw [hj]⟩

/-- Witness for C9 at `Task { id := "t1", files := ["/etc/passwd"] }`. -/
theorem absolute_file_entries_escape_workspace_witness :
    pathJoin "/workspace" "/etc/passwd" = "/etc/passwd" ∧
    ("/etc/passwd", "/etc/passwd") ∈
      (Task.mk "t1" [] ["/etc/passwd"]).get_task_files_path "/workspace" ∧
    pathJoin "/workspace" "/etc/passwd" = "/etc/passwd" ∧
    ("/workspace".toList).isPrefixOf "/etc/passwd".toList = false :=
  absolute_file_entries_escape_workspace (Task.mk "t1" [] ["/etc/passwd"])
    "/workspace" "/etc/passwd" (by rfl) (by simp)

/-- C2: when the mount table cannot be read, `mount_present` propagates the
I/O error rather than returning `false`; it returns a boolean only when the
mount table was read successfully. -/
theorem mount_present_propagates_io_error (e : IOError) (tag : String) :
    mount_present (.error e) tag = .error e ∧
    (∀ (mountsFile : Except IOError (List String)) (b : Bool),
      mount_present mountsFile tag = .ok b →
        ∃ lines, mountsFile = .ok lines) := by
  refine ⟨rfl, ?_⟩
  intro mf b h
  cases mf with
  | error e' => simp [mount_present] at h
  | ok lines => exact ⟨lines, rfl⟩

/-- Witness for C2: a failed mount-table read is propagated as the same
error, and an `Ok` result only arises from a readable table. -/
theorem mount_present_propagates_io_error_witness :
    mount_present (.error "permission denied") "/workspace"
      = .error "permission denied" ∧
    ∃ lines, (Except.ok ["a"] : Except IOError (List String)) = .ok lines :=
  ⟨(mount_present_propagates_io_error "permission denied" "/workspace").1,
   (mount_present_propagates_io_error "permission denied" "/workspace").2
     (.ok ["a"]) false rfl⟩

/-- C8: on a readable mount table, `mount_present` returns `Ok(true)` iff
some line contains the mount-point string as a substring (contiguous
occurrence), not exact path equality — so a tag inside a longer string also
matches. -/
theorem mount_present_substring_semantics (lines : List String)
    (tag : String) :
    mount_present (.ok lines) tag = .ok true ↔
      ∃ line ∈ lines, tag.toList <:+: line.toList := by
  simp only [mount_present, Except.ok.injEq]
  exact scanMounts_iff tag lines

/-- Witness for C8: the tag `/workspace` occurring strictly inside the
longer string `rpool/workspace0 ...` already counts as mounted. -/
theorem mount_present_substring_semantics_witness :
    mount_present (.ok ["rpool/workspace0 /mnt zfs rw 0 0"]) "/workspace"
      = .ok true :=
  (mount_present_substring_semantics ["rpool/workspace0 /mnt zfs rw 0 0"]
      "/workspace").mpr
    ⟨"rpool/workspace0 /mnt zfs rw 0 0", by simp,
     (strContains_iff "rpool/workspace0 /mnt zfs rw 0 0" "/workspace").mp
       (by decide)⟩

/-- C5: mount-wait bounds: the loop polls once per tick; a table never
containing the workspace tag makes `run` panic with the mount timeout at
tick `MOUNT_TIMEOUT + 1` — after the 30-tick ceiling is exceeded and never
before (the loop returns `timeout` at exactly that tick); a tag first
present at poll `N` (within the ceiling, polls being at ticks `0..30`)
makes the wait succeed at tick `N` itself. -/
theorem mount_wait_bounds (w : World)
    (cb : Task → Except String TaskResult) :
    ((∀ n, mount_present (w.mounts n) WORKSPACE_PATH = .ok false) →
      mountWaitFrom w.mounts WORKSPACE_PATH 0 = .timeout (MOUNT_TIMEOUT + 1) ∧
      (run w cb).outcome = .panicked (WORKSPACE_PATH ++ " mount timeout")) ∧
    (∀ N, N ≤ MOUNT_TIMEOUT →
      (∀ n, n < N → mount_present (w.mounts n) WORKSPACE_PATH = .ok false) →
      mount_present (w.mounts N) WORKSPACE_PATH = .ok true →
      mountWaitFrom w.mounts WORKSPACE_PATH 0 = .mounted N) := by
  constructor
  · intro h
    have hw := mountWaitFrom_never_mounted w.mounts WORKSPACE_PATH h
      (MOUNT_TIMEOUT + 1) 0 (by omega) (by omega)
    exact ⟨hw, by simp [run, hw]⟩
  · intro N hN hb hat
    exact mountWaitFrom_first_mounted w.mounts WORKSPACE_PATH N hN hb hat
      N 0 (by omega) (by omega)

/-- Witness for C5: an always-empty mount table drives `run` into the
mount-timeout panic at tick 31. -/
theorem mount_wait_bounds_witness :
    mountWaitFrom (fun _ => .ok []) WORKSPACE_PATH 0
      = .timeout (MOUNT_TIMEOUT + 1) ∧
    (run ⟨fun _ => .ok [], .error "unreached", none⟩
        (fun t => t.result [] [])).outcome
      = .panicked (WORKSPACE_PATH ++ " mount timeout") :=
  (mount_wait_bounds ⟨fun _ => .ok [], .error "unreached", none⟩
    (fun t => t.result [] [])).1 (fun _ => rfl)

/-- C1: persisting `task_result.json` is exclusive-create: if the file
already exists, `run` can never return `Ok`, the pre-existing contents are
left unchanged, and whenever the persist step is actually reached (mount
wait succeeded, descriptor decoded), `run` returns exactly the
already-exists error. -/
theorem run_result_persist_exclusive (w : World)
    (cb : Task → Except String TaskResult) (j : Json)
    (hex : w.resultFile = some j) :
    (run w cb).resultFile = some j ∧
    (run w cb).outcome ≠ .ok ∧
    (∀ (tick : Nat) (taskJson : Json) (task : Task),
      mountWaitFrom w.mounts WORKSPACE_PATH 0 = .mounted tick →
      w.taskFile = .ok taskJson → Task.fromJson taskJson = some task →
      (run w cb).outcome = .err .resultFileExists) := by
  cases hmw : mountWaitFrom w.mounts WORKSPACE_PATH 0 with
  | timeout tick =>
    have hr : run w cb = ⟨.panicked (WORKSPACE_PATH ++ " mount timeout"),
        w.resultFile⟩ := by simp [run, hmw]
    refine ⟨by rw [hr]; exact hex, by rw [hr]; simp, ?_⟩
    intro tick' tj task hm ht hd
    simp at hm
  | ioError e =>
    have hr : run w cb = ⟨.err (.io e), w.resultFile⟩ := by
      simp [run, hmw]
    refine ⟨by rw [hr]; exact hex, by rw [hr]; simp, ?_⟩
    intro tick' tj task hm ht hd
    simp at hm
  | mounted tick =>
    cases htf : w.taskFile with
    | error e =>
      have hr : run w cb = ⟨.err (.io e), w.resultFile⟩ := by
        simp [run, hmw, htf]
      refine ⟨by rw [hr]; exact hex, by rw [hr]; simp, ?_⟩
      intro tick' tj task hm ht hd
      simp at ht
    | ok taskJson =>
      cases hfj : Task.fromJson taskJson with
      | none =>
        have hr : run w cb = ⟨.err .decode, w.resultFile⟩ := by
          simp [run, hmw, htf, hfj]
        refine ⟨by rw [hr]; exact hex, by rw [hr]; simp, ?_⟩
        intro tick' tj task hm ht hd
        cases ht
        rw [hfj] at hd
        simp at hd
      | some task0 =>
        have hr : run w cb = ⟨.err .resultFileExists, some j⟩ := by
          simp [run, hmw, htf, hfj, hex]
        refine ⟨by rw [hr], by rw [hr]; simp, ?_⟩
        intro tick' tj task hm ht hd
        rw [hr]

/-- Witness for C1: a workspace with a stale `task_result.json` containing
`"stale"`, a mounted workspace and a well-formed `task.json`: the persist
step fails with the already-exists error and the stale contents remain. -/
theorem run_result_persist_exclusive_witness :
    (run ⟨fun _ => .ok ["tag0 /workspace 9p rw 0 0"],
          .ok (Task.toJson ⟨"t1", [], []⟩), some (.str "stale")⟩
        (fun t => t.result [] [])).resultFile = some (.str "stale") ∧
    (run ⟨fun _ => .ok ["tag0 /workspace 9p rw 0 0"],
          .ok (Task.toJson ⟨"t1", [], []⟩), some (.str "stale")⟩
        (fun t => t.result [] [])).outcome = .err .resultFileExists :=
  ⟨(run_result_persist_exclusive
      ⟨fun _ => .ok ["tag0 /workspace 9p rw 0 0"],
       .ok (Task.toJson ⟨"t1", [], []⟩), some (.str "stale")⟩
      (fun t => t.result [] []) (.str "stale") rfl).1,
   (run_result_persist_exclusive
      ⟨fun _ => .ok ["tag0 /workspace 9p rw 0 0"],
       .ok (Task.toJson ⟨"t1", [], []⟩), some (.str "stale")⟩
      (fun t => t.result [] []) (.str "stale") rfl).2.2
     0 (Task.toJson ⟨"t1", [], []⟩) ⟨"t1", [], []⟩
     (by rw [mountWaitFrom]; rfl) rfl rfl⟩

/-- C3: a callback failing with message `msg` does not crash the guest:
`run` returns `Ok` and persists an envelope that decodes to the failure arm
carrying `msg`; the host's result collection reports exactly that message
as its own (callback-class) failure.  Instantiated at `msg = "boom"` in the
witness. -/
theorem callback_failure_propagation (w : World)
    (cb : Task → Except String TaskResult) (taskJson : Json) (task : Task)
    (msg : String) (tick : Nat)
    (hm : mountWaitFrom w.mounts WORKSPACE_PATH 0 = .mounted tick)
    (ht : w.taskFile = .ok taskJson)
    (hd : Task.fromJson taskJson = some task)
    (hcb : cb task = .error msg)
    (hre : w.resultFile = none) :
    (run w cb).outcome = .ok ∧
    (run w cb).resultFile = some (resultToJson (.error msg)) ∧
    resultFromJson (resultToJson (.error msg)) = some (.error msg) ∧
    collectResult (run w cb).resultFile = .error (.callback msg) := by
  have hr : run w cb = ⟨.ok, some (resultToJson (.error msg))⟩ := by
    simp [run, hm, ht, hd, hre, hcb]
  rw [hr]
  refine ⟨rfl, rfl, result_fromJson_toJson _, ?_⟩
  simp [collectResult, result_fromJson_toJson (Except.error msg)]

/-- Witness for C3: the callback fails with `"boom"`; the guest still
returns `Ok` and the host reports the callback failure `"boom"`. -/
theorem callback_failure_propagation_witness :
    (run ⟨fun _ => .ok ["tag0 /workspace 9p rw 0 0"],
          .ok (Task.toJson ⟨"t2", ["--x"], []⟩), none⟩
        (fun _ => .error "boom")).outcome = .ok ∧
    (run ⟨fun _ => .ok ["tag0 /workspace 9p rw 0 0"],
          .ok (Task.toJson ⟨"t2", ["--x"], []⟩), none⟩
        (fun _ => .error "boom")).resultFile
      = some (resultToJson (.error "boom")) ∧
    resultFromJson (resultToJson (.error "boom")) = some (.error "boom") ∧
    collectResult (run ⟨fun _ => .ok ["tag0 /workspace 9p rw 0 0"],
          .ok (Task.toJson ⟨"t2", ["--x"], []⟩), none⟩
        (fun _ => .error "boom")).resultFile
      = .error (.callback "boom") :=
  callback_failure_propagation
    ⟨fun _ => .ok ["tag0 /workspace 9p rw 0 0"],
     .ok (Task.toJson ⟨"t2", ["--x"], []⟩), none⟩
    (fun _ => .error "boom") (Task.toJson ⟨"t2", ["--x"], []⟩)
    ⟨"t2", ["--x"], []⟩ "boom" 0
    (by rw [mountWaitFrom]; rfl) rfl rfl rfl rfl

/-- C10: when the mount wait, the descriptor load and the result persist
all succeed, `run` returns `Ok(())` for every callback — a callback error
is recorded only inside the persisted envelope, never as an error return of
`run`. -/
theorem run_ok_regardless_of_callback (w : World)
    (cb : Task → Except String TaskResult) (taskJson : Json) (task : Task)
    (tick : Nat)
    (hm : mountWaitFrom w.mounts WORKSPACE_PATH 0 = .mounted tick)
    (ht : w.taskFile = .ok taskJson)
    (hd : Task.fromJson taskJson = some task)
    (hre : w.resultFile = none) :
    (run w cb).outcome = .ok ∧
    (run w cb).resultFile = some (resultToJson (cb task)) := by
  have hr : run w cb = ⟨.ok, some (resultToJson (cb task))⟩ := by
    simp [run, hm, ht, hd, hre]
  rw [hr]
  exact ⟨rfl, rfl⟩

/-- Witness for C10: with a failing callback (`"disk full"`), `run` still
returns `Ok` and records the failure only in the envelope. -/
theorem run_ok_regardless_of_callback_witness :
    (run ⟨fun _ => .ok ["tag0 /workspace 9p rw 0 0"],
          .ok (Task.toJson ⟨"t3", [], ["in.bin"]⟩), none⟩
        (fun _ => .error "disk full")).outcome = .ok ∧
    (run ⟨fun _ => .ok ["tag0 /workspace 9p rw 0 0"],
          .ok (Task.toJson ⟨"t3", [], ["in.bin"]⟩), none⟩
        (fun _ => .error "disk full")).resultFile
      = some (resultToJson (.error "disk full")) :=
  run_ok_regardless_of_callback
    ⟨fun _ => .ok ["tag0 /workspace 9p rw 0 0"],
     .ok (Task.toJson ⟨"t3", [], ["in.bin"]⟩), none⟩
    (fun _ => .error "disk full") (Task.toJson ⟨"t3", [], ["in.bin"]⟩)
    ⟨"t3", [], ["in.bin"]⟩ 0
    (by rw [mountWaitFrom]; rfl) rfl rfl rfl

end GevulotShim
